import Mathlib

/-!
Shallow embedding of `src/rolling_median.py` (venmo-payments-analyzer).

The program keeps a 60-second sliding window of payment edges in a manually
chained linked list (`Transaction.next`), deduplicated by unordered
participant pair, and after every accepted transaction emits the median
vertex degree of the window graph (recomputed only when no duplicate pair
was found).

The Python heap of linked-list nodes is modelled by an arena
(`List Transaction`) in which a node's `next` field is the arena index of
its successor; `first` is the arena index of the head node.  Timestamps are
modelled as total seconds (Python `datetime` values are totally ordered and
subtract to `timedelta`s; `timedelta.seconds` is the seconds *component* of
the difference, i.e. the total difference modulo 86400, which `tdSeconds`
reproduces).  Medians are modelled as `ℚ` (Python ints / floats; all values
produced are exact multiples of 1/2, hence float-exact).  File I/O and JSON
decoding are out of scope per the specification; a raw input line is
modelled by `Line`, whose non-`record` constructors stand for the three
exception paths caught at lines 124-131 of the source.
-/

namespace Venmo

/-- One payment event, translated from class `Transaction`
(rolling_median.py lines 15-48).  `next` is the arena index of the next
node of the linked list (`None` ↦ `none`). -/
structure Transaction where
  time : Nat
  target : String
  actor : String
  next : Option Nat
deriving DecidableEq, Repr

instance : Inhabited Transaction := ⟨⟨0, "", "", none⟩⟩

/-- `(timedelta(seconds := we - t)).seconds`: the seconds component of the
difference, i.e. the Euclidean remainder of `we - t` modulo 86400 (Python
normalises `timedelta` so that `0 ≤ seconds < 86400`). -/
def tdSeconds (we t : Nat) : Int :=
  ((we : Int) - (t : Int)) % 86400

/-- A raw input line.  `record` carries the three JSON fields; the other
constructors stand for a line whose processing raises `ValueError` from
`json.loads`, `KeyError` from a missing field, or `ValueError` from
`datetime.strptime` (all caught at rolling_median.py lines 124-131). -/
inductive Line where
  | invalidJson
  | missingField
  | badTime
  | record (created_time : Nat) (target actor : String)
deriving DecidableEq, Repr

/-- Translated from `Transaction.__init__` (lines 27-48) together with the
`try/except` at lines 124-131: a malformed line yields `none`; a record
with an empty `actor` or `target` raises `ValueError` (line 47-48), also
yielding `none`. -/
def parseTransaction : Line → Option Transaction
  | .record t tg a =>
      if tg = "" ∨ a = "" then none
      else some { time := t, target := tg, actor := a, next := none }
  | _ => none

/-- `payments[k] += 1` on a `collections.Counter` modelled as an
association list (keys kept distinct, insertion order preserved). -/
def incr (c : List (String × Nat)) (k : String) : List (String × Nat) :=
  match c with
  | [] => [(k, 1)]
  | (k', n) :: rest => if k' = k then (k', n + 1) :: rest else (k', n) :: incr rest k

/-- Heap write `arena[i].next := nx`. -/
def setNext (a : List Transaction) (i : Nat) (nx : Option Nat) : List Transaction :=
  match a, i with
  | [], _ => []
  | t :: ts, 0 => { t with next := nx } :: ts
  | t :: ts, i + 1 => t :: setNext ts i nx

/-- Heap read `arena[i]`. -/
def getTx (a : List Transaction) (i : Nat) : Transaction :=
  a.getD i default

/-- The mutable locals of the `while` loop at rolling_median.py
lines 152-236 (plus the heap and the list head, both mutated by it). -/
structure LoopSt where
  arena : List Transaction
  first : Option Nat
  payments : List (String × Nat)
  lastT : Option Nat
  dupFound : Bool
  shouldInsert : Bool
  foundIP : Bool
  insertBefore : Option Nat
  insertAfter : Option Nat
deriving Repr

/-- The `while cur_transaction:` loop (rolling_median.py lines 168-236),
fuelled: each iteration advances `cur` along `next` pointers, so any
acyclic traversal finishes within `arena.length + 1` steps and the fuel
branch is never taken by the callers below.
  * lines 171-174: stale node, drop the list head to its successor;
  * lines 180-210: duplicate pair - keep (break) or splice out (continue);
  * lines 212-233: tally the node's endpoints, note the insertion point
    (breaking early if a duplicate was already found), record the node as
    `last_transaction`. -/
def loopGo (windowEnd : Nat) (newT : Transaction) :
    Nat → Option Nat → LoopSt → LoopSt
  | 0, _, st => st
  | _ + 1, none, st => st
  | fuel + 1, some i, st =>
    let c := getTx st.arena i
    if 60 < tdSeconds windowEnd c.time then
      -- transaction outside window: remove from list (line 174)
      loopGo windowEnd newT fuel c.next { st with first := c.next }
    else
      if (c.target = newT.target ∧ c.actor = newT.actor) ∨
          (c.actor = newT.target ∧ c.target = newT.actor) then
        -- transaction connection already present in graph (line 185)
        if newT.time ≤ c.time then
          -- current transaction stays, no insertion, exit loop (lines 188-192)
          { st with dupFound := true, shouldInsert := false }
        else
          -- remove current transaction from the linked list (lines 193-210)
          let cur' := c.next
          let st' :=
            match st.lastT with
            | some j => { st with dupFound := true, arena := setNext st.arena j cur' }
            | none => { st with dupFound := true, first := cur' }
          match cur' with
          | none => { st' with insertBefore := st'.lastT }
          | some _ => loopGo windowEnd newT fuel cur' st'
      else
        -- not a duplicate: tally both endpoints (lines 216-217)
        let st' := { st with payments := incr (incr st.payments c.target) c.actor }
        if ¬ st'.foundIP ∧ newT.time ≤ c.time then
          let st'' := { st' with insertBefore := st'.lastT, insertAfter := some i,
                                  foundIP := true }
          if st''.dupFound then
            -- end loop early, duplicate already found (lines 229-230)
            st''
          else
            loopGo windowEnd newT fuel c.next { st'' with lastT := some i }
        else
          loopGo windowEnd newT fuel c.next { st' with lastT := some i }

/-- Whole-run mutable state of `process` (rolling_median.py lines 115-118):
the heap arena, `first_transaction`, `window_end`, `last_median`, and the
sequence of emitted values (`none` standing for Python's `None`). -/
structure St where
  arena : List Transaction
  first : Option Nat
  window_end : Option Nat
  last_median : Option ℚ
  output : List (Option ℚ)
deriving Repr

/-- Initial state (lines 115-118). -/
def initSt : St :=
  { arena := [], first := none, window_end := none, last_median := none, output := [] }

/-- The loop-local initialisation at lines 152-166: the vertex degree
counter starts from the new transaction's endpoints, the new node is
allocated on the heap, and the traversal starts at `first_transaction`. -/
def initLoopSt (s : St) (newT : Transaction) : LoopSt :=
  { arena := s.arena ++ [{ newT with next := none }],
    first := s.first,
    payments := incr (incr [] newT.actor) newT.target,
    lastT := none, dupFound := false, shouldInsert := true, foundIP := false,
    insertBefore := none, insertAfter := none }

/-- The loop at lines 168-236, run from the initial loop state. -/
def loopResult (s : St) (wm : Nat) (newT : Transaction) : LoopSt :=
  loopGo wm newT (s.arena.length + 2) s.first (initLoopSt s newT)

/-- Translated from `insert` (rolling_median.py lines 51-82): link the new
node (arena index `newIdx`) after `prev` (or make it the list head) and
before `next`. -/
def insertNode (r : LoopSt) (newIdx : Nat) (prev nxt : Option Nat) : LoopSt :=
  let r' :=
    match prev with
    | some j => { r with arena := setNext r.arena j (some newIdx) }
    | none => { r with first := some newIdx }
  { r' with arena := setNext r'.arena newIdx nxt }

/-- `payments.most_common()`: the counter's entries sorted by count,
descending (Python's `sorted(..., key=count, reverse=True)`). -/
def vertexDegrees (payments : List (String × Nat)) : List (String × Nat) :=
  List.insertionSort (fun a b => b.2 ≤ a.2) payments

/-- The median computation at rolling_median.py lines 248-256:
`halfway = int(n / 2)`; odd `n` takes the middle entry of the descending
list, even `n` averages the two middle entries (`/ 2.0` modelled on `ℚ`). -/
def medianOfCounts (payments : List (String × Nat)) : ℚ :=
  let vd := vertexDegrees payments
  let n := vd.length
  let halfway := n / 2
  if n % 2 = 1 then ((vd.getD halfway default).2 : ℚ)
  else (((vd.getD halfway default).2 : ℚ) + ((vd.getD (halfway - 1) default).2 : ℚ)) / 2

/-- The loop followed by the conditional insertion at rolling_median.py
lines 239-243: `insert_before` falls back to `last_transaction` when no
insertion point was found (appending), and the new node sits at arena
index `s.arena.length`. -/
def afterInsert (s : St) (wm : Nat) (newT : Transaction) : LoopSt :=
  let r := loopResult s wm newT
  if r.shouldInsert then
    insertNode r s.arena.length (if r.foundIP then r.insertBefore else r.lastT)
      r.insertAfter
  else r

/-- Processing of one accepted transaction (rolling_median.py
lines 145-258) with `wm` the already-updated `window_end`: run the
traversal loop and the conditional insertion, recompute the median only if
no duplicate was found (lines 245-256), emit (line 258). -/
def acceptBody (s : St) (wm : Nat) (newT : Transaction) : St :=
  let r' := afterInsert s wm newT
  let lm := if r'.dupFound then s.last_median else some (medianOfCounts r'.payments)
  { arena := r'.arena, first := r'.first, window_end := some wm,
    last_median := lm, output := s.output ++ [lm] }

/-- Processing of one input line (rolling_median.py lines 122-258):
parse failure skips the line entirely; a first-or-newer timestamp advances
`window_end` (lines 133-135); a transaction whose age exceeds 60 window
seconds emits the last median and is dropped (lines 137-143); otherwise
the main body runs. -/
def processLine (s : St) (line : Line) : St :=
  match parseTransaction line with
  | none => s
  | some newT =>
    match s.window_end with
    | none => acceptBody s newT.time newT
    | some we =>
      if we < newT.time then acceptBody s newT.time newT
      else if 60 < tdSeconds we newT.time then
        { s with output := s.output ++ [s.last_median] }
      else acceptBody s we newT

/-- `process` (rolling_median.py lines 100-258) on an already-materialised
sequence of input lines (file I/O is the excluded collaborator). -/
def process (lines : List Line) : St :=
  lines.foldl processLine initSt

/-- Two-decimal fixed formatting `"{0:.2f}".format(n)` for the values the
program produces (non-negative exact multiples of 1/2, for which float
formatting is exact): integer part, a dot, and the fractional part in
hundredths padded to two digits. -/
def format2 (q : ℚ) : String :=
  let ip : Int := ⌊q⌋
  let f : Nat := (⌊(q - ip) * 100⌋).toNat
  toString ip ++ "." ++ (if f < 10 then "0" ++ toString f else toString f)

/-- Translated from `output_append` (rolling_median.py lines 85-97). -/
def output_append (output : String) (n : ℚ) : String :=
  output ++ format2 n ++ "\n"

/-! ### Observation of the linked list, and the specification's own median

`storeList` reads the chain of nodes reachable from the list head - the
window contents an observer of the Python program would see.  The
`spec...` definitions below follow the specification's words (degree =
number of window-resident payments touching a participant, window
membership = `watermark - edge.time ≤ 60` in total elapsed seconds, median
over the values sorted ascending); they are deliberately written from the
spec, not from the source, to be compared against the source model. -/

/-- The nodes reachable from index `i` by following `next` pointers
(fuelled; every reachable chain in the states produced here is acyclic and
shorter than the arena, so the fuel is never exhausted by `stStore`). -/
def storeList (a : List Transaction) : Nat → Option Nat → List Transaction
  | 0, _ => []
  | _ + 1, none => []
  | fuel + 1, some i => let c := getTx a i; c :: storeList a fuel c.next

/-- The current contents of the Window Store: the linked list reachable
from `first_transaction`. -/
def stStore (s : St) : List Transaction :=
  storeList s.arena (s.arena.length + 1) s.first

/-- Modelled from the spec: each edge increments the degree of both its
participants. -/
def specDegrees (edges : List Transaction) : List (String × Nat) :=
  edges.foldl (fun c e => incr (incr c e.actor) e.target) []

/-- Modelled from the spec: the edges inside the trailing 60-second
window, judged in total elapsed seconds against the watermark. -/
def specWindowEdges (wm : Nat) (edges : List Transaction) : List Transaction :=
  edges.filter (fun e => wm - e.time ≤ 60)

/-- Modelled from the spec (§4.2): the middle value of the degrees sorted
ascending, or for an even count the arithmetic mean of the two middle
values; undefined (`none`) on an empty multiset. -/
def specMedian (values : List Nat) : Option ℚ :=
  let sorted := List.insertionSort (fun a b => a ≤ b) values
  let n := sorted.length
  if n = 0 then none
  else if n % 2 = 1 then some ((sorted.getD (n / 2) 0 : ℚ))
  else some (((sorted.getD (n / 2) 0 : ℚ) + (sorted.getD (n / 2 - 1) 0 : ℚ)) / 2)

/-- Modelled from the spec: the median degree over the participants of the
edges currently inside the 60-second window. -/
def specStateMedian (s : St) : Option ℚ :=
  match s.window_end with
  | none => none
  | some wm =>
      specMedian ((specDegrees (specWindowEdges wm (stStore s))).map Prod.snd)

/-- The timestamps of the lines that parse successfully, in order. -/
def acceptedTimes (lines : List Line) : List Nat :=
  lines.filterMap (fun l => (parseTransaction l).map Transaction.time)

/-- Running maximum of a list of timestamps (`none` on the empty list). -/
def natListMax (ts : List Nat) : Option Nat :=
  ts.foldl (fun a t => some (match a with | none => t | some m => max m t)) none

/-- One fold step of the running maximum. -/
def wmStep (a : Option Nat) (t : Nat) : Option Nat :=
  some (match a with | none => t | some m => max m t)

instance : IsTotal (String × Nat) (fun a b => b.2 ≤ a.2) :=
  ⟨fun a b => le_total b.2 a.2⟩

instance : IsTrans (String × Nat) (fun a b => b.2 ≤ a.2) :=
  ⟨fun _ _ _ h1 h2 => le_trans h2 h1⟩

instance : IsAntisymm Nat (fun a b => b ≤ a) :=
  ⟨fun _ _ h1 h2 => le_antisymm h2 h1⟩

/-- The run invariant backing C10: an unset watermark means an empty
store, a set watermark means a median has been computed at least once,
and no emitted value is the uninitialised `None` placeholder. -/
def okSt (s : St) : Prop :=
  (s.window_end = none → s.first = none) ∧
  (s.window_end ≠ none → s.last_median ≠ none) ∧
  (∀ o ∈ s.output, o ≠ none)

/-! ### Concrete input traces used to separate the code from the spec -/

/-- A triangle `C-D`, `D-E`, `C-E` at time 0, an edge `A-B` at time 30,
then a duplicate `A-B` at time 70.  The last event advances the watermark
to 70, which evicts the whole triangle, yet its duplicate outcome skips
recomputation (rolling_median.py line 246). -/
def c1lines : List Line :=
  [ .record 0 "D" "C", .record 0 "E" "D", .record 0 "E" "C",
    .record 30 "B" "A", .record 70 "B" "A" ]

/-- An edge at time 0 followed by a disjoint edge one day and one second
later.  `timedelta.seconds` of the difference is 1, so the stale first
edge survives the eviction test at rolling_median.py line 171. -/
def c2lines : List Line := [ .record 0 "B" "A", .record 86401 "D" "C" ]

/-- A star at `A` around time 86500-86502, then `B-C` at time 100 - more
than a day older than the watermark.  `timedelta.seconds` of the 86402 s
difference is 2, so the staleness test at rolling_median.py line 137 lets
the ancient event into the graph. -/
def c3lines : List Line :=
  [ .record 86500 "B" "A", .record 86501 "C" "A", .record 86502 "D" "A",
    .record 100 "C" "B" ]

/-! ### Claims -/

/-- C1: the claim states that every accepted event's emitted value equals
the median degree over the participants of the edges currently inside the
60-second window, in particular also for a duplicate event whose timestamp
advances the watermark and evicts other edges.  The code violates this
(contradicting its own docstring, "the median vertex degree of the current
graph after processing each transaction"): on `c1lines` the final
duplicate event evicts the triangle, leaving only the `A-B` edge, whose
degree multiset `{A:1, B:1}` has median 1, but the skipped recomputation
emits the stale median 2. -/
theorem c1_duplicate_with_eviction_emits_stale_median :
    (process c1lines).output = [some 1, some 1, some 2, some 2, some 2] ∧
    specStateMedian (process c1lines) = some 1 := by
  constructor
  · have h : (process c1lines).output =
        [some ((((1:ℕ):ℚ) + ((1:ℕ):ℚ)) / 2), some ((1:ℕ):ℚ), some ((2:ℕ):ℚ),
         some ((2:ℕ):ℚ), some ((2:ℕ):ℚ)] := rfl
    rw [h]; norm_num
  · have h : specStateMedian (process c1lines) =
        some ((((1:ℕ):ℚ) + ((1:ℕ):ℚ)) / 2) := rfl
    rw [h]; norm_num

/-- C2: the claim states the Window Store invariant
`watermark - edge.time ≤ 60` in total elapsed seconds, also across
day-sized gaps.  The code tests `timedelta.seconds`, the seconds component
modulo 86400 (rolling_median.py line 171), so after `c2lines` the store
still holds the edge of time 0 although the watermark is 86401 - the
invariant as claimed is violated. -/
theorem c2_day_old_edge_survives_in_store :
    (process c2lines).window_end = some 86401 ∧
    (stStore (process c2lines)).map Transaction.time = [0, 86401] ∧
    ¬ (∀ e ∈ stStore (process c2lines), 86401 - e.time ≤ 60) := by decide

/-- C3: the claim states that an accepted event more than 60 total seconds
older than the watermark never enters the graph and repeats the previous
emission, and that eviction removes every edge older than 60 total
seconds.  On `c3lines` the last event is 86402 s older than the watermark,
yet `timedelta.seconds` is 2 (rolling_median.py line 137), so the event
enters the graph and a fresh median 2 is emitted instead of repeating the
previous value 1; the day-old edge also survives in the store. -/
theorem c3_day_old_event_enters_graph :
    (process c3lines).output = [some 1, some 1, some 1, some 2] ∧
    (stStore (process c3lines)).map Transaction.time = [100, 86500, 86501, 86502] := by
  constructor
  · have h : (process c3lines).output =
        [some ((((1:ℕ):ℚ) + ((1:ℕ):ℚ)) / 2), some ((1:ℕ):ℚ),
         some ((((1:ℕ):ℚ) + ((1:ℕ):ℚ)) / 2), some ((((2:ℕ):ℚ) + ((2:ℕ):ℚ)) / 2)] := rfl
    rw [h]; norm_num
  · decide

/-! ### Helper lemmas -/

theorem loopGo_none (wm : Nat) (t : Transaction) (fuel : Nat) (st : LoopSt) :
    loopGo wm t fuel none st = st := by
  cases fuel <;> rfl

theorem insertNode_dupFound (r : LoopSt) (i : Nat) (p n : Option Nat) :
    (insertNode r i p n).dupFound = r.dupFound := by
  unfold insertNode; cases p <;> rfl

theorem insertNode_payments (r : LoopSt) (i : Nat) (p n : Option Nat) :
    (insertNode r i p n).payments = r.payments := by
  unfold insertNode; cases p <;> rfl

theorem afterInsert_dupFound (s : St) (wm : Nat) (t : Transaction) :
    (afterInsert s wm t).dupFound = (loopResult s wm t).dupFound := by
  simp only [afterInsert]
  split
  · rw [insertNode_dupFound]
  · rfl

theorem afterInsert_payments (s : St) (wm : Nat) (t : Transaction) :
    (afterInsert s wm t).payments = (loopResult s wm t).payments := by
  simp only [afterInsert]
  split
  · rw [insertNode_payments]
  · rfl

theorem acceptBody_window_end (s : St) (wm : Nat) (t : Transaction) :
    (acceptBody s wm t).window_end = some wm := rfl

theorem acceptBody_last_median (s : St) (wm : Nat) (t : Transaction) :
    (acceptBody s wm t).last_median =
      (if (afterInsert s wm t).dupFound then s.last_median
       else some (medianOfCounts (afterInsert s wm t).payments)) := rfl

theorem acceptBody_output (s : St) (wm : Nat) (t : Transaction) :
    (acceptBody s wm t).output = s.output ++ [(acceptBody s wm t).last_median] := rfl

theorem processLine_eq_of_parse_none (s : St) (l : Line)
    (h : parseTransaction l = none) : processLine s l = s := by
  unfold processLine
  rw [h]

theorem processLine_window_end_first (s : St) (l : Line) (t : Transaction)
    (hp : parseTransaction l = some t) (hw : s.window_end = none) :
    (processLine s l).window_end = some t.time := by
  simp only [processLine, hp, hw]
  exact acceptBody_window_end s t.time t

theorem processLine_window_end_acc (s : St) (l : Line) (t : Transaction) (w : Nat)
    (hp : parseTransaction l = some t) (hw : s.window_end = some w) :
    (processLine s l).window_end = some (max w t.time) := by
  simp only [processLine, hp, hw]
  by_cases hlt : w < t.time
  · rw [if_pos hlt, acceptBody_window_end, max_eq_right hlt.le]
  · rw [if_neg hlt]
    have hmax : max w t.time = w := max_eq_left (not_lt.mp hlt)
    by_cases hst : 60 < tdSeconds w t.time
    · rw [if_pos hst, hmax]
    · rw [if_neg hst, acceptBody_window_end, hmax]

theorem natListMax_eq_foldl (ts : List Nat) : natListMax ts = ts.foldl wmStep none := rfl

theorem window_end_foldl (lines : List Line) :
    ∀ s : St, (lines.foldl processLine s).window_end =
      (acceptedTimes lines).foldl wmStep s.window_end := by
  induction lines with
  | nil => intro s; rfl
  | cons l ls ih =>
    intro s
    rw [List.foldl_cons, ih (processLine s l)]
    cases hp : parseTransaction l with
    | none =>
      have h1 : acceptedTimes (l :: ls) = acceptedTimes ls := by
        simp [acceptedTimes, List.filterMap_cons, hp]
      rw [h1, processLine_eq_of_parse_none s l hp]
    | some t =>
      have h1 : acceptedTimes (l :: ls) = t.time :: acceptedTimes ls := by
        simp [acceptedTimes, List.filterMap_cons, hp]
      rw [h1, List.foldl_cons]
      congr 1
      cases hw : s.window_end with
      | none => rw [processLine_window_end_first s l t hp hw]; rfl
      | some w => rw [processLine_window_end_acc s l t w hp hw]; rfl

theorem acceptBody_lm_ne_none (s : St) (wm : Nat) (t : Transaction)
    (h : s.last_median ≠ none) : (acceptBody s wm t).last_median ≠ none := by
  rw [acceptBody_last_median]
  split
  · exact h
  · simp

theorem loopResult_of_first_none (s : St) (wm : Nat) (t : Transaction)
    (h : s.first = none) : loopResult s wm t = initLoopSt s t := by
  unfold loopResult
  rw [h]
  exact loopGo_none wm t (s.arena.length + 2) (initLoopSt s t)

theorem acceptBody_lm_ne_none_of_first_none (s : St) (wm : Nat) (t : Transaction)
    (h : s.first = none) : (acceptBody s wm t).last_median ≠ none := by
  rw [acceptBody_last_median, afterInsert_dupFound, loopResult_of_first_none s wm t h]
  simp [initLoopSt]

theorem okSt_acceptBody (s : St) (wm : Nat) (t : Transaction)
    (hout : ∀ o ∈ s.output, o ≠ none)
    (hlm : (acceptBody s wm t).last_median ≠ none) :
    okSt (acceptBody s wm t) := by
  refine ⟨?_, fun _ => hlm, ?_⟩
  · rw [acceptBody_window_end]
    intro hc
    exact Option.noConfusion hc
  · rw [acceptBody_output]
    intro o ho
    rcases List.mem_append.mp ho with hmem | hmem
    · exact hout o hmem
    · rw [List.mem_singleton] at hmem
      rw [hmem]
      exact hlm

theorem okSt_processLine (s : St) (l : Line) (h : okSt s) :
    okSt (processLine s l) := by
  obtain ⟨h1, h2, h3⟩ := h
  cases hp : parseTransaction l with
  | none =>
    rw [processLine_eq_of_parse_none s l hp]
    exact ⟨h1, h2, h3⟩
  | some t =>
    cases hw : s.window_end with
    | none =>
      have hb : processLine s l = acceptBody s t.time t := by
        simp only [processLine, hp, hw]
      rw [hb]
      exact okSt_acceptBody s t.time t h3
        (acceptBody_lm_ne_none_of_first_none s t.time t (h1 hw))
    | some w =>
      have hlm0 : s.last_median ≠ none := h2 (by rw [hw]; exact Option.some_ne_none w)
      by_cases hlt : w < t.time
      · have hb : processLine s l = acceptBody s t.time t := by
          simp only [processLine, hp, hw, if_pos hlt]
        rw [hb]
        exact okSt_acceptBody s t.time t h3 (acceptBody_lm_ne_none s t.time t hlm0)
      · by_cases hst : 60 < tdSeconds w t.time
        · have hb : processLine s l = { s with output := s.output ++ [s.last_median] } := by
            simp only [processLine, hp, hw, if_neg hlt, if_pos hst]
          rw [hb]
          refine ⟨?_, fun _ => hlm0, ?_⟩
          · intro hc
            have hc' : s.window_end = none := hc
            rw [hc'] at hw
            exact Option.noConfusion hw
          intro o ho
          rcases List.mem_append.mp ho with hmem | hmem
          · exact h3 o hmem
          · rw [List.mem_singleton] at hmem
            rw [hmem]
            exact hlm0
        · have hb : processLine s l = acceptBody s w t := by
            simp only [processLine, hp, hw, if_neg hlt, if_neg hst]
          rw [hb]
          exact okSt_acceptBody s w t h3 (acceptBody_lm_ne_none s w t hlm0)

theorem okSt_process (lines : List Line) : okSt (process lines) := by
  have hinit : okSt initSt :=
    ⟨fun _ => rfl, fun hc => absurd rfl hc, fun o ho => absurd ho (List.not_mem_nil o)⟩
  have hfold : ∀ (ls : List Line) (s : St), okSt s → okSt (ls.foldl processLine s) := by
    intro ls
    induction ls with
    | nil => exact fun s hs => hs
    | cons l ls ih => exact fun s hs => ih (processLine s l) (okSt_processLine s l hs)
  exact hfold lines initSt hinit

/-! ### Claims C5 and C6 -/

/-- C5: a malformed input line - non-JSON payload, missing field,
unparseable timestamp, or an empty actor or target string - emits nothing
and leaves the whole state (watermark, window contents, last median)
unchanged; processing continues with the next line since `process` folds
`processLine` over the remaining lines regardless. -/
theorem c5_malformed_line_leaves_state_unchanged :
    (∀ (s : St) (line : Line), parseTransaction line = none → processLine s line = s) ∧
    (∀ (t : Nat) (tg a : String), tg = "" ∨ a = "" →
      parseTransaction (Line.record t tg a) = none) ∧
    parseTransaction Line.invalidJson = none ∧
    parseTransaction Line.missingField = none ∧
    parseTransaction Line.badTime = none := by
  refine ⟨?_, ?_, rfl, rfl, rfl⟩
  · intro s line h
    unfold processLine
    rw [h]
  · intro t tg a h
    simp only [parseTransaction]
    rw [if_pos h]

/-- Witness for C5 at a concrete malformed line and a concrete record with
an empty target. -/
theorem c5_witness :
    processLine initSt Line.invalidJson = initSt ∧
    parseTransaction (Line.record 0 "" "x") = none :=
  ⟨c5_malformed_line_leaves_state_unchanged.1 initSt Line.invalidJson rfl,
   c5_malformed_line_leaves_state_unchanged.2.1 0 "" "x" (Or.inl rfl)⟩

/-- C6: when the traversal loop reports a duplicate unordered pair
(either kept or replaced), the stored last median is not recomputed - it
is left exactly as it was - and the value emitted for the event is that
unchanged last median (rolling_median.py lines 245-258). -/
theorem c6_duplicate_skips_recomputation (s : St) (wm : Nat) (newT : Transaction)
    (h : (loopResult s wm newT).dupFound = true) :
    (acceptBody s wm newT).last_median = s.last_median ∧
    (acceptBody s wm newT).output = s.output ++ [s.last_median] := by
  have h' : (afterInsert s wm newT).dupFound = true := by
    rw [afterInsert_dupFound]; exact h
  have hlm : (acceptBody s wm newT).last_median = s.last_median := by
    rw [acceptBody_last_median, h']
    simp
  exact ⟨hlm, by rw [acceptBody_output, hlm]⟩

/-- Witness for C6: a replaced duplicate (`A-B` at time 0, duplicated with
reversed roles at time 10). -/
theorem c6_witness :
    (acceptBody (process [Line.record 0 "B" "A"]) 10
        { time := 10, target := "A", actor := "B", next := none }).last_median =
      (process [Line.record 0 "B" "A"]).last_median ∧
    (acceptBody (process [Line.record 0 "B" "A"]) 10
        { time := 10, target := "A", actor := "B", next := none }).output =
      (process [Line.record 0 "B" "A"]).output ++
        [(process [Line.record 0 "B" "A"]).last_median] :=
  c6_duplicate_skips_recomputation _ _ _ (by decide)

/-! ### Claims C8, C9 and C10 -/

theorem length_le_incr (c : List (String × Nat)) (k : String) :
    c.length ≤ (incr c k).length := by
  induction c with
  | nil => exact Nat.le_succ 0
  | cons p rest ih =>
    obtain ⟨k', n⟩ := p
    simp only [incr]
    split
    · exact le_refl _
    · simpa using Nat.succ_le_succ ih

theorem loopGo_payments_le (wm : Nat) (t : Transaction) :
    ∀ (fuel : Nat) (cur : Option Nat) (st : LoopSt),
      st.payments.length ≤ (loopGo wm t fuel cur st).payments.length := by
  intro fuel
  induction fuel with
  | zero => intro cur st; exact le_refl _
  | succ n ih =>
    intro cur st
    cases cur with
    | none => exact le_refl _
    | some i =>
      simp only [loopGo]
      split
      · refine le_trans ?_ (ih _ _)
        exact le_refl _
      · split
        · split
          · exact le_refl _
          · split
            · cases st.lastT <;> exact le_refl _
            · refine le_trans ?_ (ih _ _)
              cases st.lastT <;> exact le_refl _
        · split
          · split
            · exact le_trans (length_le_incr _ _) (length_le_incr _ _)
            · refine le_trans ?_ (ih _ _)
              exact le_trans (length_le_incr _ _) (length_le_incr _ _)
          · refine le_trans ?_ (ih _ _)
            exact le_trans (length_le_incr _ _) (length_le_incr _ _)

/-- C9: whenever the median computation can be invoked the degree counter
holds at least one participant - the freshly accepted event's actor and
target are tallied before the loop (rolling_median.py lines 153-155) and
the loop never removes counter entries - so the two index accesses
`vertex_degrees[halfway]` and `vertex_degrees[halfway - 1]` are in bounds
and the undefined `n == 0` case is unreachable. -/
theorem c9_degree_multiset_nonempty (s : St) (wm : Nat) (newT : Transaction) :
    1 ≤ (loopResult s wm newT).payments.length ∧
    (loopResult s wm newT).payments.length / 2 <
      (loopResult s wm newT).payments.length ∧
    ((loopResult s wm newT).payments.length % 2 = 0 →
      1 ≤ (loopResult s wm newT).payments.length / 2) := by
  have h1 : 1 ≤ (loopResult s wm newT).payments.length := by
    have h0 : 1 ≤ (initLoopSt s newT).payments.length := by
      have : ([(newT.actor, 1)] : List (String × Nat)).length ≤
          (incr [(newT.actor, 1)] newT.target).length := length_le_incr _ _
      simpa [initLoopSt, incr] using this
    exact le_trans h0 (loopGo_payments_le wm newT _ _ _)
  exact ⟨h1, by omega, by omega⟩

/-- Witness for C9 at an even-sized concrete counter. -/
theorem c9_witness :
    1 ≤ (loopResult initSt 0
      { time := 0, target := "B", actor := "A", next := none }).payments.length ∧
    (loopResult initSt 0
      { time := 0, target := "B", actor := "A", next := none }).payments.length / 2 <
      (loopResult initSt 0
        { time := 0, target := "B", actor := "A", next := none }).payments.length ∧
    1 ≤ (loopResult initSt 0
      { time := 0, target := "B", actor := "A", next := none }).payments.length / 2 := by
  have h := c9_degree_multiset_nonempty initSt 0
    { time := 0, target := "B", actor := "A", next := none }
  exact ⟨h.1, h.2.1, h.2.2 (by decide)⟩

/-! ### Claims C8 and C10 (continued) -/

/-- C8: after any prefix of the input the watermark equals the running
maximum of the timestamps of all successfully parsed events (hence it is
monotonically non-decreasing), and an accepted event whose timestamp is
not later than the current watermark leaves the watermark unchanged
(rolling_median.py lines 133-135). -/
theorem c8_watermark_is_running_max :
    (∀ lines : List Line,
      (process lines).window_end = natListMax (acceptedTimes lines)) ∧
    (∀ (s : St) (l : Line) (w : Nat), s.window_end = some w →
      ∃ w', (processLine s l).window_end = some w' ∧ w ≤ w') ∧
    (∀ (s : St) (l : Line) (t : Transaction) (w : Nat),
      parseTransaction l = some t → s.window_end = some w → t.time ≤ w →
      (processLine s l).window_end = some w) := by
  refine ⟨?_, ?_, ?_⟩
  · intro lines
    rw [natListMax_eq_foldl]
    exact window_end_foldl lines initSt
  · intro s l w hw
    cases hp : parseTransaction l with
    | none =>
      exact ⟨w, by rw [processLine_eq_of_parse_none s l hp]; exact hw, le_refl w⟩
    | some t =>
      exact ⟨max w t.time, processLine_window_end_acc s l t w hp hw, le_max_left w t.time⟩
  · intro s l t w hp hw hle
    rw [processLine_window_end_acc s l t w hp hw, max_eq_left hle]

/-- Witness for C8: a two-line run, a no-op line on a set watermark, and
an older accepted event that leaves the watermark at 5. -/
theorem c8_witness :
    (process [Line.record 5 "b" "a", Line.record 3 "d" "c"]).window_end =
      natListMax (acceptedTimes [Line.record 5 "b" "a", Line.record 3 "d" "c"]) ∧
    (∃ w', (processLine (process [Line.record 5 "b" "a"]) Line.badTime).window_end =
      some w' ∧ 5 ≤ w') ∧
    (processLine (process [Line.record 5 "b" "a"]) (Line.record 3 "d" "c")).window_end =
      some 5 :=
  ⟨c8_watermark_is_running_max.1 [Line.record 5 "b" "a", Line.record 3 "d" "c"],
   c8_watermark_is_running_max.2.1 (process [Line.record 5 "b" "a"]) Line.badTime 5
     (by decide),
   c8_watermark_is_running_max.2.2 (process [Line.record 5 "b" "a"])
     (Line.record 3 "d" "c") { time := 3, target := "d", actor := "c", next := none } 5
     (by decide) (by decide) (by decide)⟩

/-- C10: no emitted value is ever the uninitialised `None` placeholder.
In particular the stale-event branch (rolling_median.py line 141), which
requires a set watermark, always re-emits a real median: the first
accepted event necessarily finds an empty store, reports no duplicate and
computes a median, and a set watermark implies a set median from then on
(invariant `okSt`). -/
theorem c10_none_never_emitted :
    ∀ (lines : List Line), ∀ o ∈ (process lines).output, o ≠ none := by
  intro lines o ho
  exact (okSt_process lines).2.2 o ho

/-- Witness for C10 at a one-line run. -/
theorem c10_witness :
    some ((((1:ℕ):ℚ) + ((1:ℕ):ℚ)) / 2) ≠ (none : Option ℚ) := by
  apply c10_none_never_emitted [Line.record 0 "B" "A"]
  rw [show (process [Line.record 0 "B" "A"]).output =
    [some ((((1:ℕ):ℚ) + ((1:ℕ):ℚ)) / 2)] from rfl]
  exact List.mem_singleton.mpr rfl

/-! ### Claims C4 and C7: the median rule -/


theorem getD_snd (l : List (String × Nat)) (i : Nat) :
    (l.getD i default).2 = (l.map Prod.snd).getD i 0 := by
  induction l generalizing i with
  | nil => cases i <;> rfl
  | cons p rest ih =>
    cases i with
    | zero => rfl
    | succ j => simpa using ih j

theorem getD_reverse (l : List Nat) (i : Nat) (h : i < l.length) :
    l.reverse.getD i 0 = l.getD (l.length - 1 - i) 0 := by
  rw [List.getD_eq_getElem _ _ (by simpa using h),
      List.getD_eq_getElem _ _ (by omega), List.getElem_reverse]

theorem vertexDegrees_values (p : List (String × Nat)) :
    (vertexDegrees p).map Prod.snd =
      (List.insertionSort (fun a b => a ≤ b) (p.map Prod.snd)).reverse := by
  apply List.eq_of_perm_of_sorted (r := fun a b : Nat => b ≤ a)
  · exact (((List.perm_insertionSort _ p).map Prod.snd).trans
      (List.perm_insertionSort _ _).symm).trans (List.reverse_perm _).symm
  · exact List.pairwise_map.mpr
      (List.sorted_insertionSort (fun a b : String × Nat => b.2 ≤ a.2) p)
  · exact List.pairwise_reverse.mpr
      (List.sorted_insertionSort (fun a b : Nat => a ≤ b) (p.map Prod.snd))

theorem medianOfCounts_eq_asc (p : List (String × Nat)) :
    medianOfCounts p =
      (if p.length % 2 = 1 then
        (((List.insertionSort (fun a b => a ≤ b) (p.map Prod.snd)).getD
          (p.length / 2) 0 : ℕ) : ℚ)
      else
        ((((List.insertionSort (fun a b => a ≤ b) (p.map Prod.snd)).getD
            (p.length / 2) 0 : ℕ) : ℚ) +
         (((List.insertionSort (fun a b => a ≤ b) (p.map Prod.snd)).getD
            (p.length / 2 - 1) 0 : ℕ) : ℚ)) / 2) := by
  set asc := List.insertionSort (fun a b => a ≤ b) (p.map Prod.snd) with hasc
  have hvd : (vertexDegrees p).map Prod.snd = asc.reverse := vertexDegrees_values p
  have hlvd : (vertexDegrees p).length = p.length :=
    (List.perm_insertionSort _ p).length_eq
  have hlasc : asc.length = p.length := by
    rw [hasc, List.length_insertionSort, List.length_map]
  simp only [medianOfCounts]
  rw [hlvd]
  rcases Nat.eq_zero_or_pos p.length with hz | hpos
  · have hvd0 : vertexDegrees p = [] := List.length_eq_zero.mp (hlvd.trans hz)
    have hasc0 : asc = [] := List.length_eq_zero.mp (hlasc.trans hz)
    rw [hz, hvd0, hasc0]
    norm_num
    rfl
  · have hrev : ∀ i, i < p.length →
        ((vertexDegrees p).getD i default).2 = asc.getD (p.length - 1 - i) 0 := by
      intro i hi
      rw [getD_snd, hvd, getD_reverse _ _ (by rw [hlasc]; exact hi), hlasc]
    by_cases hodd : p.length % 2 = 1
    · rw [if_pos hodd, if_pos hodd, hrev _ (by omega)]
      congr 2
      omega
    · rw [if_neg hodd, if_neg hodd, hrev _ (by omega), hrev _ (by omega)]
      have e1 : p.length - 1 - p.length / 2 = p.length / 2 - 1 := by omega
      have e2 : p.length - 1 - (p.length / 2 - 1) = p.length / 2 := by omega
      rw [e1, e2]
      ring

/-- C4: the median computed at rolling_median.py lines 248-256 over a
non-empty degree multiset of size `n` is, for odd `n`, the middle value of
the degrees sorted by magnitude (here stated against the ascending sort;
the code sorts descending via `most_common`, which is symmetric), and for
even `n` the arithmetic mean `(a+b)/2` of the two middle values in sorted
order; and it depends only on the multiset of degree values, so the tie
order among equal degrees never changes the numeric result. -/
theorem c4_median_rule (p : List (String × Nat)) (_hne : p ≠ []) :
    (p.length % 2 = 1 → medianOfCounts p =
      ((List.insertionSort (fun a b => a ≤ b) (p.map Prod.snd)).getD
        (p.length / 2) 0 : ℚ)) ∧
    (p.length % 2 = 0 → medianOfCounts p =
      (((List.insertionSort (fun a b => a ≤ b) (p.map Prod.snd)).getD
          (p.length / 2) 0 : ℚ) +
       ((List.insertionSort (fun a b => a ≤ b) (p.map Prod.snd)).getD
          (p.length / 2 - 1) 0 : ℚ)) / 2) ∧
    (∀ q : List (String × Nat), (q.map Prod.snd).Perm (p.map Prod.snd) →
      medianOfCounts q = medianOfCounts p) := by
  refine ⟨?_, ?_, ?_⟩
  · intro h
    rw [medianOfCounts_eq_asc, if_pos h]
  · intro h
    rw [medianOfCounts_eq_asc, if_neg (by omega)]
  · intro q hq
    have hsort : List.insertionSort (fun a b => a ≤ b) (q.map Prod.snd) =
        List.insertionSort (fun a b => a ≤ b) (p.map Prod.snd) :=
      List.eq_of_perm_of_sorted
        (((List.perm_insertionSort _ _).trans hq).trans
          (List.perm_insertionSort _ _).symm)
        (List.sorted_insertionSort _ _) (List.sorted_insertionSort _ _)
    have hlen : q.length = p.length := by
      have h1 := hq.length_eq
      simpa using h1
    rw [medianOfCounts_eq_asc q, medianOfCounts_eq_asc p, hsort, hlen]

/-- Witness for C4 at the counter `{a:1, b:2}` and its reordering. -/
theorem c4_witness :
    medianOfCounts [("a", 1), ("b", 2)] =
      (((List.insertionSort (fun a b => a ≤ b)
          ([("a", 1), ("b", 2)].map Prod.snd)).getD 1 0 : ℚ) +
       ((List.insertionSort (fun a b => a ≤ b)
          ([("a", 1), ("b", 2)].map Prod.snd)).getD 0 0 : ℚ)) / 2 ∧
    medianOfCounts [("b", 2), ("a", 1)] = medianOfCounts [("a", 1), ("b", 2)] := by
  have h := c4_median_rule [("a", 1), ("b", 2)] (by decide)
  exact ⟨h.2.1 (by decide), h.2.2 [("b", 2), ("a", 1)] (by decide)⟩

theorem format2_natCast (k : ℕ) : format2 ((k : ℚ)) = toString (k : ℤ) ++ ".00" := by
  simp only [format2]
  rw [Int.floor_natCast]
  rw [show ((k:ℚ) - ((k:ℤ):ℚ)) * 100 = 0 from by push_cast; ring]
  rw [Int.floor_zero]
  rw [String.append_assoc]
  rfl

theorem format2_halfCast (k : ℕ) :
    format2 ((k : ℚ) + 1/2) = toString (k : ℤ) ++ ".50" := by
  simp only [format2]
  rw [show ⌊(k:ℚ) + 1/2⌋ = (k:ℤ) from by
    rw [Int.floor_eq_iff]
    constructor <;> push_cast <;> linarith]
  rw [show (((k:ℚ) + 1/2) - ((k:ℤ):ℚ)) * 100 = 50 from by push_cast; ring]
  rw [show ⌊(50:ℚ)⌋ = (50:ℤ) from by norm_num]
  rw [String.append_assoc]
  rfl



/-- C7: a median recomputed over an odd-sized vertex set is an integer
and formats as a line ending in `.00`; over an even-sized vertex set it is
an integer or a half, formatting as `.00` or `.50` - never another
fractional remainder.  Both suffixes put exactly two digits after the
decimal point (`output_append` adds only the newline,
rolling_median.py line 96). -/
theorem c7_median_parity_and_format (p : List (String × Nat)) (_hne : p ≠ []) :
    (p.length % 2 = 1 → ∃ k : ℕ, medianOfCounts p = (k : ℚ) ∧
      format2 (medianOfCounts p) = toString (k : ℤ) ++ ".00") ∧
    (p.length % 2 = 0 → ∃ k : ℕ,
      (medianOfCounts p = (k : ℚ) ∧
        format2 (medianOfCounts p) = toString (k : ℤ) ++ ".00") ∨
      (medianOfCounts p = (k : ℚ) + 1/2 ∧
        format2 (medianOfCounts p) = toString (k : ℤ) ++ ".50")) := by
  have hlvd : (vertexDegrees p).length = p.length :=
    (List.perm_insertionSort _ p).length_eq
  constructor
  · intro h
    have hm : medianOfCounts p =
        (((vertexDegrees p).getD (p.length / 2) default).2 : ℚ) := by
      simp only [medianOfCounts]
      rw [hlvd, if_pos h]
    exact ⟨_, hm, by rw [hm]; exact format2_natCast _⟩
  · intro h
    have hm : medianOfCounts p =
        ((((vertexDegrees p).getD (p.length / 2) default).2 : ℚ) +
         (((vertexDegrees p).getD (p.length / 2 - 1) default).2 : ℚ)) / 2 := by
      simp only [medianOfCounts]
      rw [hlvd, if_neg (by omega)]
    set x := ((vertexDegrees p).getD (p.length / 2) default).2 with hx
    set y := ((vertexDegrees p).getD (p.length / 2 - 1) default).2 with hy
    rcases Nat.even_or_odd (x + y) with he | ho
    · obtain ⟨k, hk⟩ := he
      have hmk : medianOfCounts p = (k : ℚ) := by
        rw [hm]
        have h2 : ((x : ℚ) + y) = 2 * k := by
          have h3 : ((x + y : ℕ) : ℚ) = ((k + k : ℕ) : ℚ) := by rw [hk]
          push_cast at h3
          linarith
        rw [h2]
        ring
      exact ⟨k, Or.inl ⟨hmk, by rw [hmk]; exact format2_natCast k⟩⟩
    · obtain ⟨k, hk⟩ := ho
      have hmk : medianOfCounts p = (k : ℚ) + 1/2 := by
        rw [hm]
        have h2 : ((x : ℚ) + y) = 2 * k + 1 := by
          have h3 : ((x + y : ℕ) : ℚ) = ((2 * k + 1 : ℕ) : ℚ) := by rw [hk]
          push_cast at h3
          linarith
        rw [h2]
        ring
      exact ⟨k, Or.inr ⟨hmk, by rw [hmk]; exact format2_halfCast k⟩⟩

/-- Witness for C7 at an odd-sized and an even-sized counter. -/
theorem c7_witness :
    (∃ k : ℕ, medianOfCounts [("a", 3)] = (k : ℚ) ∧
      format2 (medianOfCounts [("a", 3)]) = toString (k : ℤ) ++ ".00") ∧
    (∃ k : ℕ,
      (medianOfCounts [("a", 1), ("b", 2)] = (k : ℚ) ∧
        format2 (medianOfCounts [("a", 1), ("b", 2)]) = toString (k : ℤ) ++ ".00") ∨
      (medianOfCounts [("a", 1), ("b", 2)] = (k : ℚ) + 1/2 ∧
        format2 (medianOfCounts [("a", 1), ("b", 2)]) = toString (k : ℤ) ++ ".50")) :=
  ⟨(c7_median_parity_and_format [("a", 3)] (by decide)).1 (by decide),
   (c7_median_parity_and_format [("a", 1), ("b", 2)] (by decide)).2 (by decide)⟩


end Venmo
